import Mathlib

/-
Verification of chromadb/db/impl/sqlite_pool.py.

The module provides three connection pools over sqlite:
  * `LockPool` (the spec's ExclusiveSerialPool): one connection per thread,
    guarded by a single process-wide re-entrant lock;
  * `PerThreadPool`: one connection per thread, no cross-thread lock on connect;
  * `ReusableConnectionPool` (the spec's BoundedSharedPool): a bounded queue of
    pre-created connections shared by all threads.

We embed the module as explicit state-transition systems.  Native sqlite
connections are identified by natural numbers allocated by a `nextId` counter
(each `Connection(...)` construction in the Python source allocates a fresh
id).  Blocking primitives (lock acquisition, queue get/put, event wait) become
enabling preconditions of the step relations; a Python operation that can raise
is translated to an `Except`-valued function, with `try/except` blocks catching
the error branch exactly where the source does.  Ghost fields (`everCreated`,
`closedConns`, `checkedOut`) record, respectively, every connection id the pool
ever constructed, the ids on which `close_actual()` (i.e. `sqlite3.close`) has
been invoked, and the ids handed out by `connect()` and not yet passed to
`return_to_pool()`.
-/

namespace SqlitePool

/-! ### Connection open-time configuration

`Connection.__init__` configures every freshly opened sqlite connection with a
fixed sequence of statements (sqlite_pool.py lines 24-34).  We record the
executed statements in source order. -/

/-- The memory-map window, `mmap_size = 2048 * 1024 * 1024` in the source. -/
def mmap_size : Nat := 2048 * 1024 * 1024

/-- The statements `Connection.__init__` executes on the native connection,
in source order (after setting `isolation_level = None`). -/
def connectionSetupStatements : List String :=
  [ "PRAGMA cache_size = 2000000;"
  , "PRAGMA temp_store = MEMORY;"
  , "PRAGMA journal_mode = OFF;"
  , "PRAGMA mmap_size = " ++ toString mmap_size ++ ";"
  , "PRAGMA synchronous = OFF;"
  , "PRAGMA optimize;"
  , "ANALYZE embedding_metadata;"
  , "ANALYZE embeddings;" ]

/-- The tables named in the `ANALYZE` statements of the setup sequence
(the `ANALYZE ` prefix and the trailing semicolon removed). -/
def analyzedTables : List String :=
  (connectionSetupStatements.filter
      (fun st => st.toList.take 8 == "ANALYZE ".toList)).map
    (fun st => String.mk ((st.toList.drop 8).dropLast))

/-! ### The re-entrant lock (`threading.RLock`)

Modelled as an optional owner thread together with an acquisition count.
`acquire()` blocks unless the lock is free or already owned by the caller;
`release()` raises `RuntimeError` when the caller does not own the lock. -/

structure RLock where
  owner : Option Nat
  count : Nat
  deriving DecidableEq, Repr

/-- A fresh, unheld `threading.RLock()`. -/
def RLock.free : RLock := ⟨none, 0⟩

/-- `acquire()` succeeds (without blocking) iff the lock is free or already
held by the calling thread. -/
def RLock.canAcquire (t : Nat) (l : RLock) : Prop :=
  l.owner = none ∨ l.owner = some t

instance (t : Nat) (l : RLock) : Decidable (RLock.canAcquire t l) := by
  unfold RLock.canAcquire; infer_instance

/-- The state after thread `t` successfully acquires the lock. -/
def RLock.acquire (t : Nat) (l : RLock) : RLock :=
  ⟨some t, l.count + 1⟩

/-- `release()`: decrement the count if the caller owns the lock (freeing it at
zero); otherwise raise `RuntimeError`, modelled as the error branch. -/
def RLock.releaseE (t : Nat) (l : RLock) : Except Unit RLock :=
  if l.owner = some t then
    .ok ⟨if l.count ≤ 1 then none else some t, l.count - 1⟩
  else
    .error ()

/-! ### LockPool (the spec's ExclusiveSerialPool) -/

/-- State of a `LockPool`: the `_connections` set, the per-thread
`threading.local()` cache `_connection`, the `_lock`, the fresh-id counter for
`Connection(...)` constructions, the ghost histories, and the construction
parameters `_db_file` / `_is_uri`. -/
structure LState where
  connections : Finset Nat
  threadConn : Nat → Option Nat
  lock : RLock
  nextId : Nat
  everCreated : Finset Nat
  closedConns : Finset Nat
  dbFile : String
  isUri : Bool

/-- `LockPool.__init__(db_file, is_uri)`. -/
def LState.mkInit (d : String) (u : Bool) : LState :=
  { connections := ∅
  , threadConn := fun _ => none
  , lock := RLock.free
  , nextId := 0
  , everCreated := ∅
  , closedConns := ∅
  , dbFile := d
  , isUri := u }

namespace LockPool

/-- `LockPool.connect` for thread `t`: acquire the lock, then return the
thread's cached connection if present, else construct a new `Connection`,
cache it for `t` and add it to `_connections`.  Only meaningful in states where
the acquisition does not block, i.e. `RLock.canAcquire t s.lock`. -/
def connect (t : Nat) (s : LState) : Nat × LState :=
  let s1 : LState := { s with lock := RLock.acquire t s.lock }
  match s1.threadConn t with
  | some c => (c, s1)
  | none =>
      let c := s1.nextId
      (c, { s1 with
              threadConn := fun x => if x = t then some c else s1.threadConn x
            , connections := insert c s1.connections
            , everCreated := insert c s1.everCreated
            , nextId := c + 1 })

/-- `LockPool.return_to_pool`: release the lock, catching the
`RuntimeError` raised when the caller does not hold it (`try ... except
RuntimeError: pass`).  The `conn` argument is ignored by the source. -/
def returnToPool (t : Nat) (s : LState) : Except Unit LState :=
  match RLock.releaseE t s.lock with
  | .ok l => .ok { s with lock := l }
  | .error _ => .ok s

/-- `LockPool.close`: `close_actual()` every connection in `_connections`,
clear the set, replace the thread-local cache with a fresh `threading.local()`,
then release the lock with the `RuntimeError` caught. -/
def close (t : Nat) (s : LState) : Except Unit LState :=
  let s1 : LState := { s with
      closedConns := s.closedConns ∪ s.connections
    , connections := ∅
    , threadConn := fun _ => none }
  match RLock.releaseE t s1.lock with
  | .ok l => .ok { s1 with lock := l }
  | .error _ => .ok s1

end LockPool

/-- One observable operation on a `LockPool`, performed by some thread. -/
inductive LStep : LState → LState → Prop
  | connect (t : Nat) (s : LState) (h : RLock.canAcquire t s.lock) :
      LStep s (LockPool.connect t s).2
  | ret (t : Nat) (s s' : LState) (h : LockPool.returnToPool t s = .ok s') :
      LStep s s'
  | close (t : Nat) (s s' : LState) (h : LockPool.close t s = .ok s') :
      LStep s s'

/-- Reachable states of a `LockPool`, from any construction. -/
inductive LReach : LState → Prop
  | init (d : String) (u : Bool) : LReach (LState.mkInit d u)
  | step {s s' : LState} : LReach s → LStep s s' → LReach s'

/-- Structural invariant of `LockPool` states: connection ids are allocated
below `nextId`, the registry and the per-thread caches only hold created
connections, and every created connection is registered or already closed. -/
def LInv (s : LState) : Prop :=
  (∀ c ∈ s.everCreated, c < s.nextId) ∧
  s.connections ⊆ s.everCreated ∧
  s.everCreated ⊆ s.closedConns ∪ s.connections ∧
  (∀ t c, s.threadConn t = some c → c ∈ s.everCreated)

theorem linv_init (d : String) (u : Bool) : LInv (LState.mkInit d u) := by
  refine ⟨?_, ?_, ?_, ?_⟩ <;> simp [LState.mkInit]

theorem linv_step {s s' : LState} (hs : LInv s) (st : LStep s s') : LInv s' := by
  obtain ⟨h1, h2, h3, h4⟩ := hs
  cases st with
  | connect t s h =>
      unfold LockPool.connect
      cases hc : s.threadConn t with
      | some c =>
          simp only [hc]
          exact ⟨h1, h2, h3, h4⟩
      | none =>
          simp only [hc]
          refine ⟨?_, ?_, ?_, ?_⟩
          · intro c hc'
            simp only [Finset.mem_insert] at hc'
            rcases hc' with rfl | hc'
            · exact Nat.lt_succ_self _
            · exact Nat.lt_succ_of_lt (h1 c hc')
          · intro c hc'
            simp only [Finset.mem_insert] at hc' ⊢
            rcases hc' with rfl | hc'
            · exact Or.inl rfl
            · exact Or.inr (h2 hc')
          · intro c hc'
            simp only [Finset.mem_insert, Finset.mem_union] at hc' ⊢
            rcases hc' with rfl | hc'
            · exact Or.inr (Or.inl rfl)
            · rcases Finset.mem_union.mp (h3 hc') with hcl | hco
              · exact Or.inl hcl
              · exact Or.inr (Or.inr hco)
          · intro t' c hc'
            simp only at hc'
            by_cases ht : t' = t
            · subst ht
              simp only [if_pos rfl] at hc'
              cases hc'
              exact Finset.mem_insert_self _ _
            · simp only [if_neg ht] at hc'
              exact Finset.mem_insert_of_mem (h4 t' c hc')
  | ret t s s' h =>
      unfold LockPool.returnToPool at h
      rcases hrel : RLock.releaseE t s.lock with l | l <;> rw [hrel] at h <;>
        cases h <;> exact ⟨h1, h2, h3, h4⟩
  | close t s s' h =>
      unfold LockPool.close at h
      have goal1 : LInv { s with
          closedConns := s.closedConns ∪ s.connections
        , connections := ∅
        , threadConn := fun _ => none } := by
        refine ⟨h1, ?_, ?_, ?_⟩
        · intro c hc
          simp at hc
        · intro c hc
          rcases Finset.mem_union.mp (h3 hc) with hcl | hco
          · exact Finset.mem_union_left _ (Finset.mem_union_left _ hcl)
          · exact Finset.mem_union_left _ (Finset.mem_union_right _ hco)
        · intro t' c hc
          simp at hc
      rcases hrel : RLock.releaseE t s.lock with e | l <;>
        simp only [hrel] at h <;> cases h
      · exact goal1
      · exact ⟨goal1.1, goal1.2.1, goal1.2.2.1, goal1.2.2.2⟩

theorem lreach_inv {s : LState} (h : LReach s) : LInv s := by
  induction h with
  | init d u => exact linv_init d u
  | step _ st ih => exact linv_step ih st

/-! ### PerThreadPool -/

/-- State of a `PerThreadPool`: the `_connections` set, the per-thread
`threading.local()` cache, the fresh-id counter, ghost histories, and the
construction parameters.  (The pool's `_lock` only guards mutation of
`_connections`; it has no effect on sequential state evolution.) -/
structure PState where
  connections : Finset Nat
  threadConn : Nat → Option Nat
  nextId : Nat
  everCreated : Finset Nat
  closedConns : Finset Nat
  dbFile : String
  isUri : Bool

/-- `PerThreadPool.__init__(db_file, is_uri)`. -/
def PState.mkInit (d : String) (u : Bool) : PState :=
  { connections := ∅
  , threadConn := fun _ => none
  , nextId := 0
  , everCreated := ∅
  , closedConns := ∅
  , dbFile := d
  , isUri := u }

namespace PerThreadPool

/-- `PerThreadPool.connect` for thread `t`: return the thread's cached
connection if present, else construct a new `Connection`, cache it for `t`
and (under `_lock`) add it to `_connections`.  Never blocks. -/
def connect (t : Nat) (s : PState) : Nat × PState :=
  match s.threadConn t with
  | some c => (c, s)
  | none =>
      let c := s.nextId
      (c, { s with
              threadConn := fun x => if x = t then some c else s.threadConn x
            , connections := insert c s.connections
            , everCreated := insert c s.everCreated
            , nextId := c + 1 })

/-- `PerThreadPool.return_to_pool` is literally `pass`. -/
def returnToPool (_c : Nat) (s : PState) : PState := s

/-- `PerThreadPool.close`: under `_lock`, `close_actual()` every connection in
`_connections`, clear the set, and replace the thread-local cache with a fresh
`threading.local()`. -/
def close (s : PState) : PState :=
  { s with
      closedConns := s.closedConns ∪ s.connections
    , connections := ∅
    , threadConn := fun _ => none }

end PerThreadPool

/-- One observable operation on a `PerThreadPool`. -/
inductive PStep : PState → PState → Prop
  | connect (t : Nat) (s : PState) : PStep s (PerThreadPool.connect t s).2
  | ret (c : Nat) (s : PState) : PStep s (PerThreadPool.returnToPool c s)
  | close (s : PState) : PStep s (PerThreadPool.close s)

/-- Reachable states of a `PerThreadPool`. -/
inductive PReach : PState → Prop
  | init (d : String) (u : Bool) : PReach (PState.mkInit d u)
  | step {s s' : PState} : PReach s → PStep s s' → PReach s'

/-- Structural invariant of `PerThreadPool` states: ids below `nextId`,
registry and caches inside the creation history, every created connection
registered or closed, and no connection cached by two distinct threads. -/
def PInv (s : PState) : Prop :=
  (∀ c ∈ s.everCreated, c < s.nextId) ∧
  s.connections ⊆ s.everCreated ∧
  s.everCreated ⊆ s.closedConns ∪ s.connections ∧
  (∀ t c, s.threadConn t = some c → c ∈ s.everCreated) ∧
  (∀ t₁ t₂ c, s.threadConn t₁ = some c → s.threadConn t₂ = some c → t₁ = t₂)

theorem pinv_init (d : String) (u : Bool) : PInv (PState.mkInit d u) := by
  refine ⟨?_, ?_, ?_, ?_, ?_⟩ <;> simp [PState.mkInit]

theorem pinv_step {s s' : PState} (hs : PInv s) (st : PStep s s') : PInv s' := by
  obtain ⟨h1, h2, h3, h4, h5⟩ := hs
  cases st with
  | connect t s =>
      unfold PerThreadPool.connect
      cases hc : s.threadConn t with
      | some c =>
          simp only [hc]
          exact ⟨h1, h2, h3, h4, h5⟩
      | none =>
          simp only [hc]
          refine ⟨?_, ?_, ?_, ?_, ?_⟩
          · intro c hc'
            simp only [Finset.mem_insert] at hc'
            rcases hc' with rfl | hc'
            · exact Nat.lt_succ_self _
            · exact Nat.lt_succ_of_lt (h1 c hc')
          · intro c hc'
            simp only [Finset.mem_insert] at hc' ⊢
            rcases hc' with rfl | hc'
            · exact Or.inl rfl
            · exact Or.inr (h2 hc')
          · intro c hc'
            simp only [Finset.mem_insert, Finset.mem_union] at hc' ⊢
            rcases hc' with rfl | hc'
            · exact Or.inr (Or.inl rfl)
            · rcases Finset.mem_union.mp (h3 hc') with hcl | hco
              · exact Or.inl hcl
              · exact Or.inr (Or.inr hco)
          · intro t' c hc'
            simp only at hc'
            by_cases ht : t' = t
            · subst ht
              simp only [if_pos rfl] at hc'
              cases hc'
              exact Finset.mem_insert_self _ _
            · simp only [if_neg ht] at hc'
              exact Finset.mem_insert_of_mem (h4 t' c hc')
          · intro t₁ t₂ c hc1 hc2
            simp only at hc1 hc2
            by_cases ht1 : t₁ = t <;> by_cases ht2 : t₂ = t
            · omega
            · subst ht1
              simp only [if_pos rfl] at hc1
              simp only [if_neg ht2] at hc2
              cases hc1
              exact absurd (h1 _ (h4 t₂ _ hc2)) (lt_irrefl _)
            · subst ht2
              simp only [if_pos rfl] at hc2
              simp only [if_neg ht1] at hc1
              cases hc2
              exact absurd (h1 _ (h4 t₁ _ hc1)) (lt_irrefl _)
            · simp only [if_neg ht1] at hc1
              simp only [if_neg ht2] at hc2
              exact h5 t₁ t₂ c hc1 hc2
  | ret c s =>
      exact ⟨h1, h2, h3, h4, h5⟩
  | close s =>
      dsimp only [PerThreadPool.close]
      refine ⟨h1, ?_, ?_, ?_, ?_⟩
      · intro c hc
        simp at hc
      · intro c hc
        rcases Finset.mem_union.mp (h3 hc) with hcl | hco
        · exact Finset.mem_union_left _ (Finset.mem_union_left _ hcl)
        · exact Finset.mem_union_left _ (Finset.mem_union_right _ hco)
      · intro t c hc
        simp at hc
      · intro t₁ t₂ c hc1 hc2
        simp at hc1

theorem preach_inv {s : PState} (h : PReach s) : PInv s := by
  induction h with
  | init d u => exact pinv_init d u
  | step _ st ih => exact pinv_step ih st

/-! ### ReusableConnectionPool (the spec's BoundedSharedPool)

`_available_connections` is a `Queue(maxsize=max_connections)` of connection
objects; we model its contents as a list of `Option Nat` so that the
`if connection is None` branch of `connect` stays expressible.  `put` appends,
`get` removes the head; both block (no step) rather than fail when full/empty.
The `_initialized` event becomes a boolean that gates `connect`. -/

structure RState where
  available : List (Option Nat)
  allConns : Finset Nat
  nextId : Nat
  initialized : Bool
  maxConn : Nat
  everCreated : Finset Nat
  closedConns : Finset Nat
  checkedOut : Finset Nat
  dbFile : String
  isUri : Bool

/-- The state at the top of `ReusableConnectionPool.__init__`, before the
pre-fill loop runs. -/
def RState.mkEmpty (maxConnections : Nat) (d : String) (u : Bool) : RState :=
  { available := []
  , allConns := ∅
  , nextId := 0
  , initialized := false
  , maxConn := maxConnections
  , everCreated := ∅
  , closedConns := ∅
  , checkedOut := ∅
  , dbFile := d
  , isUri := u }

namespace ReusableConnectionPool

/-- `_create_new_connection`: construct a `Connection` and add it to
`_all_connections`. -/
def createNewConnection (s : RState) : Nat × RState :=
  (s.nextId,
   { s with
       allConns := insert s.nextId s.allConns
     , everCreated := insert s.nextId s.everCreated
     , nextId := s.nextId + 1 })

/-- One iteration of the pre-fill loop:
`self._available_connections.put(self._create_new_connection())`. -/
def prefillStep (s : RState) : RState :=
  let p := createNewConnection s
  { p.2 with available := p.2.available ++ [some p.1] }

/-- The pre-fill loop, `for _ in range(n)`. -/
def prefill : Nat → RState → RState
  | 0, s => s
  | n + 1, s => prefill n (prefillStep s)

/-- `ReusableConnectionPool.__init__(db_file, is_uri, max_connections)`:
pre-fill the queue with `max_connections` connections, then set
`_initialized`. -/
def mkPool (maxConnections : Nat) (d : String) (u : Bool) : RState :=
  { prefill maxConnections (RState.mkEmpty maxConnections d u) with
      initialized := true }

/-- `ReusableConnectionPool.connect`: wait on `_initialized`, block on
`get()` from the queue, and if the dequeued value is `None`, fall back to
creating a new connection on demand.  `none` as the overall result means the
call blocks in this state (event not set, or empty queue). -/
def connect (s : RState) : Option (Nat × RState) :=
  if s.initialized = false then none
  else
    match s.available with
    | [] => none
    | none :: rest =>
        let p := createNewConnection { s with available := rest }
        some (p.1, { p.2 with checkedOut := insert p.1 p.2.checkedOut })
    | some c :: rest =>
        some (c, { s with available := rest, checkedOut := insert c s.checkedOut })

/-- `ReusableConnectionPool.return_to_pool`: enqueue the handle only when it
belongs to `_all_connections`; otherwise drop it silently.  (The ghost
`checkedOut` field stops regarding the handle as checked out either way.) -/
def returnToPool (c : Nat) (s : RState) : RState :=
  if c ∈ s.allConns then
    { s with available := s.available ++ [some c]
           , checkedOut := s.checkedOut.erase c }
  else
    { s with checkedOut := s.checkedOut.erase c }

/-- `ReusableConnectionPool.close`: drain the queue, `close_actual()` each
drained connection, then `close_actual()` everything in `_all_connections` and
clear it.  Draining calls `close_actual()` on each dequeued object, which
would fail on a `None` entry; the error branch records that (it is unreachable
from reachable states). -/
def close (s : RState) : Except Unit RState :=
  if s.available.all Option.isSome then
    .ok { s with
            available := []
          , closedConns :=
              s.closedConns ∪ (s.available.filterMap id).toFinset ∪ s.allConns
          , allConns := ∅ }
  else
    .error ()

end ReusableConnectionPool

/-- One observable operation on a `ReusableConnectionPool`.  A `connect` step
exists only when the call does not block; a `ret` step requires the `put` not
to block (queue below capacity) whenever it actually enqueues. -/
inductive RStep : RState → RState → Prop
  | connect (s : RState) (c : Nat) (s' : RState)
      (h : ReusableConnectionPool.connect s = some (c, s')) : RStep s s'
  | ret (c : Nat) (s : RState)
      (hput : c ∈ s.allConns → s.available.length < s.maxConn) :
      RStep s (ReusableConnectionPool.returnToPool c s)
  | close (s s' : RState) (h : ReusableConnectionPool.close s = .ok s') :
      RStep s s'

/-- Reachable states of a `ReusableConnectionPool`. -/
inductive RReach : RState → Prop
  | init (maxConnections : Nat) (d : String) (u : Bool) :
      RReach (ReusableConnectionPool.mkPool maxConnections d u)
  | step {s s' : RState} : RReach s → RStep s s' → RReach s'

/-- Structural invariant of `ReusableConnectionPool` states: the queue holds
only registered (non-`None`) connections, registry and checked-out handles lie
in the creation history, every created connection is registered or closed, and
at most `maxConn` connections were ever created. -/
def RInv (s : RState) : Prop :=
  (∀ o ∈ s.available, ∃ c, o = some c ∧ c ∈ s.allConns) ∧
  s.allConns ⊆ s.everCreated ∧
  s.checkedOut ⊆ s.everCreated ∧
  s.everCreated ⊆ s.closedConns ∪ s.allConns ∧
  s.everCreated.card ≤ s.maxConn

/-- The state reached after `j` iterations of the pre-fill loop of
`ReusableConnectionPool.__init__`: connections `0, …, j-1` created, queued in
creation order, and registered; the readiness event still unset. -/
def partialFill (maxConnections j : Nat) (d : String) (u : Bool) : RState :=
  { available := (List.range j).map some
  , allConns := Finset.range j
  , nextId := j
  , initialized := false
  , maxConn := maxConnections
  , everCreated := Finset.range j
  , closedConns := ∅
  , checkedOut := ∅
  , dbFile := d
  , isUri := u }

theorem prefillStep_partialFill (K j : Nat) (d : String) (u : Bool) :
    ReusableConnectionPool.prefillStep (partialFill K j d u) =
      partialFill K (j + 1) d u := by
  simp [ReusableConnectionPool.prefillStep,
    ReusableConnectionPool.createNewConnection, partialFill,
    List.range_succ, Finset.range_succ]

theorem prefill_partialFill (K : Nat) (d : String) (u : Bool) :
    ∀ n j, ReusableConnectionPool.prefill n (partialFill K j d u) =
      partialFill K (j + n) d u := by
  intro n
  induction n with
  | zero => intro j; rfl
  | succ n ih =>
      intro j
      show ReusableConnectionPool.prefill n
        (ReusableConnectionPool.prefillStep (partialFill K j d u)) = _
      rw [prefillStep_partialFill, ih (j + 1)]
      congr 1
      omega

theorem mkEmpty_eq_partialFill (K : Nat) (d : String) (u : Bool) :
    RState.mkEmpty K d u = partialFill K 0 d u := by
  simp [RState.mkEmpty, partialFill]

theorem mkPool_eq (K : Nat) (d : String) (u : Bool) :
    ReusableConnectionPool.mkPool K d u =
      { partialFill K K d u with initialized := true } := by
  unfold ReusableConnectionPool.mkPool
  rw [mkEmpty_eq_partialFill, prefill_partialFill K d u K 0]
  simp

theorem rinv_init (K : Nat) (d : String) (u : Bool) :
    RInv (ReusableConnectionPool.mkPool K d u) := by
  rw [mkPool_eq]
  refine ⟨?_, ?_, ?_, ?_, ?_⟩
  · intro o ho
    simp only [partialFill, List.mem_map, List.mem_range] at ho
    obtain ⟨a, ha, rfl⟩ := ho
    exact ⟨a, rfl, by simpa [partialFill] using ha⟩
  · simp [partialFill]
  · simp [partialFill]
  · intro c hc
    simp only [partialFill] at hc ⊢
    exact Finset.mem_union_right _ hc
  · simp [partialFill]

theorem rinv_step {s s' : RState} (hs : RInv s) (st : RStep s s') : RInv s' := by
  obtain ⟨h1, h2, h3, h4, h5⟩ := hs
  cases st with
  | connect s c s' h =>
      unfold ReusableConnectionPool.connect at h
      by_cases hinit : s.initialized = false
      · rw [if_pos hinit] at h; cases h
      · rw [if_neg hinit] at h
        cases hav : s.available with
        | nil => rw [hav] at h; cases h
        | cons o rest =>
            rw [hav] at h
            cases o with
            | none =>
                obtain ⟨c', hc', hmem⟩ := h1 none (hav ▸ List.mem_cons_self _ _)
                cases hc'
            | some c0 =>
                have hc0 : c0 ∈ s.allConns := by
                  obtain ⟨c', hc', hmem⟩ := h1 (some c0) (hav ▸ List.mem_cons_self _ _)
                  cases hc'
                  exact hmem
                simp only at h
                cases h
                refine ⟨?_, h2, ?_, h4, h5⟩
                · intro o ho
                  exact h1 o (hav ▸ List.mem_cons_of_mem _ ho)
                · intro x hx
                  rcases Finset.mem_insert.mp hx with rfl | hx
                  · exact h2 hc0
                  · exact h3 hx
  | ret c s hput =>
      unfold ReusableConnectionPool.returnToPool
      by_cases hc : c ∈ s.allConns
      · rw [if_pos hc]
        refine ⟨?_, h2, ?_, h4, h5⟩
        · intro o ho
          rcases List.mem_append.mp ho with ho | ho
          · exact h1 o ho
          · rcases List.mem_singleton.mp ho with rfl
            exact ⟨c, rfl, hc⟩
        · exact fun x hx => h3 (Finset.mem_of_mem_erase hx)
      · rw [if_neg hc]
        exact ⟨h1, h2, fun x hx => h3 (Finset.mem_of_mem_erase hx), h4, h5⟩
  | close s s' h =>
      unfold ReusableConnectionPool.close at h
      by_cases hall : s.available.all Option.isSome
      · rw [if_pos hall] at h
        cases h
        refine ⟨?_, ?_, h3, ?_, h5⟩
        · intro o ho
          simp at ho
        · intro x hx
          simp at hx
        · intro x hx
          rcases Finset.mem_union.mp (h4 hx) with hx' | hx'
          · exact Finset.mem_union_left _
              (Finset.mem_union_left _ (Finset.mem_union_left _ hx'))
          · exact Finset.mem_union_left _ (Finset.mem_union_right _ hx')
      · rw [if_neg hall] at h; cases h

theorem rreach_inv {s : RState} (h : RReach s) : RInv s := by
  induction h with
  | init K d u => exact rinv_init K d u
  | step _ st ih => exact rinv_step ih st

/-! ### Helper computation lemmas -/

theorem rreturn_mem (c : Nat) (s : RState) (hc : c ∈ s.allConns) :
    ReusableConnectionPool.returnToPool c s =
      { s with available := s.available ++ [some c]
             , checkedOut := s.checkedOut.erase c } := by
  unfold ReusableConnectionPool.returnToPool
  rw [if_pos hc]

theorem rconnect_cons (c : Nat) (rest : List (Option Nat)) (s : RState)
    (hinit : s.initialized = true) (hav : s.available = some c :: rest) :
    ReusableConnectionPool.connect s =
      some (c, { s with available := rest
                      , checkedOut := insert c s.checkedOut }) := by
  unfold ReusableConnectionPool.connect
  rw [hinit, hav]
  rfl

theorem rconnect_initialized (s : RState) (c : Nat) (s' : RState)
    (h : ReusableConnectionPool.connect s = some (c, s')) :
    s.initialized = true := by
  cases hb : s.initialized with
  | true => rfl
  | false =>
      unfold ReusableConnectionPool.connect at h
      rw [hb] at h
      simp at h

theorem rclose_of_allSome (s : RState)
    (hall : s.available.all Option.isSome = true) :
    ReusableConnectionPool.close s =
      .ok { s with
              available := []
            , closedConns :=
                s.closedConns ∪ (s.available.filterMap id).toFinset ∪ s.allConns
            , allConns := ∅ } := by
  unfold ReusableConnectionPool.close
  rw [if_pos hall]

theorem lreturn_lock (t : Nat) (s : LState) :
    LockPool.returnToPool t s =
      .ok { s with lock := match RLock.releaseE t s.lock with
                           | .ok l => l
                           | .error _ => s.lock } := by
  unfold LockPool.returnToPool
  rcases hrel : RLock.releaseE t s.lock with e | l <;> simp only [hrel]

theorem lclose_fields (t : Nat) (s s' : LState)
    (h : LockPool.close t s = .ok s') :
    s'.connections = ∅ ∧ s'.threadConn = (fun _ => none) ∧
      s'.everCreated = s.everCreated ∧
      s'.closedConns = s.closedConns ∪ s.connections ∧
      s'.nextId = s.nextId := by
  unfold LockPool.close at h
  rcases hrel : RLock.releaseE t s.lock with e | l <;> simp only [hrel] at h <;>
    cases h <;> exact ⟨rfl, rfl, rfl, rfl, rfl⟩

theorem lclose_isOk (t : Nat) (s : LState) :
    ∃ s', LockPool.close t s = .ok s' := by
  unfold LockPool.close
  rcases hrel : RLock.releaseE t s.lock with e | l <;> simp only [hrel] <;>
    exact ⟨_, rfl⟩

theorem lconnect_none (t : Nat) (s : LState) (hc : s.threadConn t = none) :
    LockPool.connect t s =
      (s.nextId,
       { s with
           lock := RLock.acquire t s.lock
         , threadConn := fun x => if x = t then some s.nextId
                                  else s.threadConn x
         , connections := insert s.nextId s.connections
         , everCreated := insert s.nextId s.everCreated
         , nextId := s.nextId + 1 }) := by
  unfold LockPool.connect
  simp only [hc]

theorem pconnect_none (t : Nat) (s : PState) (hc : s.threadConn t = none) :
    PerThreadPool.connect t s =
      (s.nextId,
       { s with
           threadConn := fun x => if x = t then some s.nextId
                                  else s.threadConn x
         , connections := insert s.nextId s.connections
         , everCreated := insert s.nextId s.everCreated
         , nextId := s.nextId + 1 }) := by
  unfold PerThreadPool.connect
  simp only [hc]

/-! ### Claims -/

/-- The state of a fresh `LockPool` after thread 0 has called `connect()`
once. -/
def lockAfterConnect : LState :=
  (LockPool.connect 0 (LState.mkInit "chroma.sqlite3" false)).2

/-- The state after thread 0 then calls `return_to_pool` (releasing the
lock): the thread-local cache still holds connection 0. -/
def lockReleasedState : LState :=
  { lockAfterConnect with lock := ⟨none, 0⟩ }

theorem lockReleasedState_reach : LReach lockReleasedState :=
  LReach.step
    (LReach.step (LReach.init "chroma.sqlite3" false)
      (LStep.connect 0 (LState.mkInit "chroma.sqlite3" false) (Or.inl rfl)))
    (LStep.ret 0 lockAfterConnect lockReleasedState rfl)

/-- Claim C2 as stated: for a `LockPool`, when the calling thread holds a
cached handle it has not yet released (releasing means releasing the
re-entrant lock, so an unreleased holder still owns the lock), `connect`
returns that handle and opens nothing new; OTHERWISE `connect` opens exactly
one new physical connection. -/
def lockPoolConnectClaim : Prop :=
  ∀ (t : Nat) (s : LState), LReach s → RLock.canAcquire t s.lock →
    ((∃ c, s.threadConn t = some c ∧ s.lock.owner = some t) →
      (LockPool.connect t s).2.everCreated = s.everCreated) ∧
    (¬ (∃ c, s.threadConn t = some c ∧ s.lock.owner = some t) →
      (LockPool.connect t s).1 = s.nextId ∧
      (LockPool.connect t s).2.everCreated = insert s.nextId s.everCreated)

/-- Claim C2 counterexample: thread 0 connects to a fresh `LockPool` and then
releases.  Now it holds no unreleased handle (the lock is free), so the claim
demands that the next `connect` open a new physical connection — but the code
returns the still-cached old handle and opens nothing: the thread-local cache
is not cleared by `return_to_pool`. -/
theorem lockPool_connect_claim_counterexample : ¬ lockPoolConnectClaim := by
  intro h
  obtain ⟨hcache, hother⟩ :=
    h 0 lockReleasedState lockReleasedState_reach (Or.inl rfl)
  have hnot : ¬ (∃ c, lockReleasedState.threadConn 0 = some c ∧
      lockReleasedState.lock.owner = some 0) := by
    rintro ⟨c, hc, hown⟩
    exact absurd hown (by decide)
  obtain ⟨hfst, hsnd⟩ := hother hnot
  exact absurd hfst (by decide)

/-- Claim C2 (amended): `LockPool.connect` returns the calling thread's
cached handle — whenever one exists, whether or not the thread has released
since — and opens no new connection; only a thread with no cached handle gets
exactly one freshly opened connection, cached under its identity and added to
the all-connections set.  (The cache persists across `return_to_pool` and is
only cleared by `close`.) -/
theorem lockPool_connect_cached_or_new (t : Nat) (s : LState)
    (hs : LReach s) (_hacq : RLock.canAcquire t s.lock) :
    (∀ c, s.threadConn t = some c →
      (LockPool.connect t s).1 = c ∧
      (LockPool.connect t s).2.everCreated = s.everCreated ∧
      (LockPool.connect t s).2.connections = s.connections ∧
      (LockPool.connect t s).2.nextId = s.nextId) ∧
    (s.threadConn t = none →
      (LockPool.connect t s).1 = s.nextId ∧
      s.nextId ∉ s.everCreated ∧
      (LockPool.connect t s).2.everCreated = insert s.nextId s.everCreated ∧
      (LockPool.connect t s).2.threadConn t = some s.nextId ∧
      (LockPool.connect t s).2.connections = insert s.nextId s.connections) := by
  constructor
  · intro c hc
    unfold LockPool.connect
    simp [hc]
  · intro hc
    have hfresh : s.nextId ∉ s.everCreated := by
      obtain ⟨i1, i2, i3, i4⟩ := lreach_inv hs
      intro hmem
      exact absurd (i1 _ hmem) (lt_irrefl _)
    unfold LockPool.connect
    simp [hc, hfresh]

theorem lockPool_connect_cached_or_new_witness :
    (∀ c, (LState.mkInit "chroma.sqlite3" false).threadConn 0 = some c →
      (LockPool.connect 0 (LState.mkInit "chroma.sqlite3" false)).1 = c ∧
      (LockPool.connect 0 (LState.mkInit "chroma.sqlite3" false)).2.everCreated
          = (LState.mkInit "chroma.sqlite3" false).everCreated ∧
      (LockPool.connect 0 (LState.mkInit "chroma.sqlite3" false)).2.connections
          = (LState.mkInit "chroma.sqlite3" false).connections ∧
      (LockPool.connect 0 (LState.mkInit "chroma.sqlite3" false)).2.nextId
          = (LState.mkInit "chroma.sqlite3" false).nextId) ∧
    ((LState.mkInit "chroma.sqlite3" false).threadConn 0 = none →
      (LockPool.connect 0 (LState.mkInit "chroma.sqlite3" false)).1
          = (LState.mkInit "chroma.sqlite3" false).nextId ∧
      (LState.mkInit "chroma.sqlite3" false).nextId ∉
          (LState.mkInit "chroma.sqlite3" false).everCreated ∧
      (LockPool.connect 0 (LState.mkInit "chroma.sqlite3" false)).2.everCreated
          = insert (LState.mkInit "chroma.sqlite3" false).nextId
              (LState.mkInit "chroma.sqlite3" false).everCreated ∧
      (LockPool.connect 0 (LState.mkInit "chroma.sqlite3" false)).2.threadConn 0
          = some (LState.mkInit "chroma.sqlite3" false).nextId ∧
      (LockPool.connect 0 (LState.mkInit "chroma.sqlite3" false)).2.connections
          = insert (LState.mkInit "chroma.sqlite3" false).nextId
              (LState.mkInit "chroma.sqlite3" false).connections) :=
  lockPool_connect_cached_or_new 0 (LState.mkInit "chroma.sqlite3" false)
    (LReach.init "chroma.sqlite3" false) (Or.inl rfl)

/-- Claim C3: `LockPool.return_to_pool` never raises — the `RuntimeError`
from releasing an unheld lock is caught — even with no matching `connect`
and even called twice in a row; and after such a double release from a state
where the caller held at most one matching acquisition (or none), the lock is
free, so any thread's subsequent `connect` can proceed (no deadlock). -/
theorem lockPool_release_without_ownership_tolerated :
    (∀ (t : Nat) (s : LState), ∃ s', LockPool.returnToPool t s = .ok s') ∧
    (∀ (t w : Nat) (s s₁ s₂ : LState),
      (s.lock.owner = none ∨ (s.lock.owner = some t ∧ s.lock.count ≤ 2)) →
      LockPool.returnToPool t s = .ok s₁ →
      LockPool.returnToPool t s₁ = .ok s₂ →
      s₂.lock.owner = none ∧ RLock.canAcquire w s₂.lock) := by
  constructor
  · intro t s
    exact ⟨_, lreturn_lock t s⟩
  · intro t w s s₁ s₂ hown hr1 hr2
    rw [lreturn_lock t s] at hr1
    cases hr1
    rw [lreturn_lock t _] at hr2
    cases hr2
    rcases hown with hnone | ⟨howner, hcount⟩
    · have : ¬ s.lock.owner = some t := by rw [hnone]; simp
      simp only [RLock.releaseE, if_neg this]
      exact ⟨hnone, Or.inl hnone⟩
    · by_cases hc1 : s.lock.count ≤ 1
      · simp only [RLock.releaseE, if_pos howner, if_pos hc1]
        simp [RLock.canAcquire, RLock.releaseE]
      · simp only [RLock.releaseE, if_pos howner, if_neg hc1]
        have hc2 : s.lock.count - 1 ≤ 1 := by omega
        simp [RLock.canAcquire, RLock.releaseE, hc2]

theorem lockPool_release_without_ownership_tolerated_witness :
    (∃ s', LockPool.returnToPool 0 (LState.mkInit "chroma.sqlite3" false)
        = .ok s') ∧
    ((LState.mkInit "chroma.sqlite3" false).lock.owner = none ∧
      RLock.canAcquire 1 (LState.mkInit "chroma.sqlite3" false).lock) :=
  ⟨lockPool_release_without_ownership_tolerated.1 0
      (LState.mkInit "chroma.sqlite3" false),
   lockPool_release_without_ownership_tolerated.2 0 1
      (LState.mkInit "chroma.sqlite3" false)
      (LState.mkInit "chroma.sqlite3" false)
      (LState.mkInit "chroma.sqlite3" false) (Or.inl rfl) rfl rfl⟩

/-- Claim C8: every connection opened by any pool variant is configured at
open time by exactly this statement sequence, in this order: large page
cache, in-memory temp storage, journal off, a memory-map window of exactly
`2048 * 1024 * 1024` bytes (two gibibytes), synchronous off, an optimize
hint, and `ANALYZE` on exactly the tables `embedding_metadata` and
`embeddings`. -/
theorem connection_open_configuration :
    connectionSetupStatements =
      [ "PRAGMA cache_size = 2000000;"
      , "PRAGMA temp_store = MEMORY;"
      , "PRAGMA journal_mode = OFF;"
      , "PRAGMA mmap_size = 2147483648;"
      , "PRAGMA synchronous = OFF;"
      , "PRAGMA optimize;"
      , "ANALYZE embedding_metadata;"
      , "ANALYZE embeddings;" ] ∧
    mmap_size = 2048 * 1024 * 1024 ∧
    mmap_size = 2 * (1024 * 1024 * 1024) ∧
    analyzedTables = ["embedding_metadata", "embeddings"] := by
  refine ⟨by decide, rfl, by decide, by decide⟩

/-- Claim C1: in every reachable state of a `ReusableConnectionPool`
(capacity `maxConn`), the set of handles obtained via `connect()` and not yet
passed to `return_to_pool()` has at most `maxConn` elements; in particular a
(non-blocking) `connect()` step — whose definition includes the defensive
on-demand fallback branch — never raises the checked-out count above the
capacity. -/
theorem reusable_checkedOut_card_le_capacity (s : RState) (hs : RReach s) :
    s.checkedOut.card ≤ s.maxConn ∧
      (∀ c s', ReusableConnectionPool.connect s = some (c, s') →
        s'.checkedOut.card ≤ s'.maxConn) := by
  constructor
  · obtain ⟨i1, i2, i3, i4, i5⟩ := rreach_inv hs
    exact le_trans (Finset.card_le_card i3) i5
  · intro c s' hc
    obtain ⟨i1, i2, i3, i4, i5⟩ :=
      rreach_inv (RReach.step hs (RStep.connect s c s' hc))
    exact le_trans (Finset.card_le_card i3) i5

theorem reusable_checkedOut_card_le_capacity_witness :
    (ReusableConnectionPool.mkPool 2 "chroma.sqlite3" false).checkedOut.card ≤
        (ReusableConnectionPool.mkPool 2 "chroma.sqlite3" false).maxConn ∧
      (∀ c s', ReusableConnectionPool.connect
          (ReusableConnectionPool.mkPool 2 "chroma.sqlite3" false) = some (c, s') →
        s'.checkedOut.card ≤ s'.maxConn) :=
  reusable_checkedOut_card_le_capacity _ (RReach.init 2 "chroma.sqlite3" false)

/-- Claim C5: `ReusableConnectionPool.__init__` with capacity `K` opens
exactly `K` connections, puts all of them in the available queue, registers
all of them, and the readiness event is still unset throughout the pre-fill
loop and set once construction finishes; moreover `connect()` only proceeds
(returns a value) in states where the readiness event is set. -/
theorem reusable_construction_prefills_capacity (K : Nat) (d : String) (u : Bool) :
    (ReusableConnectionPool.mkPool K d u).available = (List.range K).map some ∧
    (ReusableConnectionPool.mkPool K d u).available.length = K ∧
    (ReusableConnectionPool.mkPool K d u).allConns = Finset.range K ∧
    (ReusableConnectionPool.mkPool K d u).everCreated = Finset.range K ∧
    (ReusableConnectionPool.mkPool K d u).everCreated.card = K ∧
    (ReusableConnectionPool.mkPool K d u).initialized = true ∧
    (∀ j, (ReusableConnectionPool.prefill j (RState.mkEmpty K d u)).initialized
        = false) ∧
    (∀ s c s', ReusableConnectionPool.connect s = some (c, s') →
        s.initialized = true) := by
  rw [mkPool_eq]
  refine ⟨rfl, by simp [partialFill], rfl, rfl, by simp [partialFill], rfl, ?_, ?_⟩
  · intro j
    rw [mkEmpty_eq_partialFill, prefill_partialFill K d u j 0]
    rfl
  · exact rconnect_initialized

theorem reusable_construction_prefills_capacity_witness :
    (ReusableConnectionPool.mkPool 3 "chroma.sqlite3" false).available
        = [some 0, some 1, some 2] ∧
    (ReusableConnectionPool.mkPool 3 "chroma.sqlite3" false).everCreated.card = 3 ∧
    (ReusableConnectionPool.mkPool 3 "chroma.sqlite3" false).initialized = true ∧
    (ReusableConnectionPool.prefill 2
        (RState.mkEmpty 3 "chroma.sqlite3" false)).initialized = false := by
  obtain ⟨a1, a2, a3, a4, a5, a6, a7, a8⟩ :=
    reusable_construction_prefills_capacity 3 "chroma.sqlite3" false
  exact ⟨by rw [a1]; decide, a5, a6, a7 2⟩

/-- Claim C6: returning a handle that the `ReusableConnectionPool` does not
recognize (not in `_all_connections`) leaves the queue contents and the
registry unchanged — the handle is silently dropped.  (`return_to_pool` is a
total function here: the drop path raises nothing.) -/
theorem reusable_return_unknown_handle_dropped (c : Nat) (s : RState)
    (hc : c ∉ s.allConns) :
    (ReusableConnectionPool.returnToPool c s).available = s.available ∧
    (ReusableConnectionPool.returnToPool c s).allConns = s.allConns ∧
    (ReusableConnectionPool.returnToPool c s).closedConns = s.closedConns := by
  unfold ReusableConnectionPool.returnToPool
  rw [if_neg hc]
  exact ⟨rfl, rfl, rfl⟩

theorem reusable_return_unknown_handle_dropped_witness :
    (5 ∉ (({ available := [some 0], allConns := {0, 1}, nextId := 2
           , initialized := true, maxConn := 2, everCreated := {0, 1}
           , closedConns := ∅, checkedOut := {1}, dbFile := "chroma.sqlite3"
           , isUri := false } : RState)).allConns) ∧
    ((ReusableConnectionPool.returnToPool 5
        { available := [some 0], allConns := {0, 1}, nextId := 2
        , initialized := true, maxConn := 2, everCreated := {0, 1}
        , closedConns := ∅, checkedOut := {1}, dbFile := "chroma.sqlite3"
        , isUri := false }).available = [some 0] ∧
      (ReusableConnectionPool.returnToPool 5
        { available := [some 0], allConns := {0, 1}, nextId := 2
        , initialized := true, maxConn := 2, everCreated := {0, 1}
        , closedConns := ∅, checkedOut := {1}, dbFile := "chroma.sqlite3"
        , isUri := false }).allConns = {0, 1} ∧
      (ReusableConnectionPool.returnToPool 5
        { available := [some 0], allConns := {0, 1}, nextId := 2
        , initialized := true, maxConn := 2, everCreated := {0, 1}
        , closedConns := ∅, checkedOut := {1}, dbFile := "chroma.sqlite3"
        , isUri := false }).closedConns = ∅) :=
  ⟨by decide, reusable_return_unknown_handle_dropped 5 _ (by decide)⟩

/-- Claim C9 as stated: for EVERY reachable `ReusableConnectionPool` state
with a registered handle `c` and an (otherwise) empty queue, both
`return_to_pool(c)` calls complete — their bounded-queue `put`s do not block,
i.e. the queue is below `maxsize` at each `put` — the queue then holds `c`
twice, and two subsequent `connect()` calls both return `c`. -/
def reusableDoubleReturnClaim : Prop :=
  ∀ s : RState, RReach s → ∀ c, c ∈ s.allConns → s.available = [] →
    s.initialized = true →
    s.available.length < s.maxConn ∧
    (ReusableConnectionPool.returnToPool c s).available.length <
        (ReusableConnectionPool.returnToPool c s).maxConn ∧
    (ReusableConnectionPool.returnToPool c
        (ReusableConnectionPool.returnToPool c s)).available
      = [some c, some c] ∧
    ∃ s₂ s₃,
      ReusableConnectionPool.connect
          (ReusableConnectionPool.returnToPool c
            (ReusableConnectionPool.returnToPool c s)) = some (c, s₂) ∧
      ReusableConnectionPool.connect s₂ = some (c, s₃)

/-- A `ReusableConnectionPool` constructed with `max_connections = 1`. -/
def reusableCapOnePool : RState :=
  ReusableConnectionPool.mkPool 1 "chroma.sqlite3" false

/-- The capacity-1 pool after its one connection has been checked out:
the queue is empty and handle 0 is registered. -/
def reusableCapOneBusy : RState :=
  { reusableCapOnePool with
      available := []
    , checkedOut := insert 0 reusableCapOnePool.checkedOut }

theorem reusableCapOneBusy_reach : RReach reusableCapOneBusy :=
  RReach.step (RReach.init 1 "chroma.sqlite3" false)
    (RStep.connect reusableCapOnePool 0 reusableCapOneBusy
      (rconnect_cons 0 [] reusableCapOnePool rfl rfl))

/-- Claim C9 counterexample: at `max_connections = 1`, after one `connect()`
the queue is empty and handle 0 is registered — a reachable state satisfying
the claim's hypotheses — but the first `return_to_pool(0)` fills the
`Queue(maxsize=1)`, so the second call's `put` blocks forever: the claimed
second enqueue (and the two subsequent `connect()`s both yielding the handle)
never happens. -/
theorem reusable_double_return_claim_counterexample :
    ¬ reusableDoubleReturnClaim := by
  intro h
  obtain ⟨h1, h2, hrest⟩ :=
    h reusableCapOneBusy reusableCapOneBusy_reach 0 (by decide) rfl rfl
  exact absurd h2 (by decide)

/-- Claim C9 (amended): for a `ReusableConnectionPool` of capacity at least 2
and a registered handle `c`, starting from an empty queue, two successive
`return_to_pool(c)` calls complete — each `put` finds the queue below
`maxsize`, so both are admissible steps — and enqueue `c` twice, since
`return_to_pool` performs no already-available check; two subsequent
`connect()` calls then both return `c`.  (At capacity 1 the second `put`
blocks forever on the full queue.) -/
theorem reusable_double_return_enqueues_twice (c : Nat) (s : RState)
    (hc : c ∈ s.allConns) (hav : s.available = [])
    (hinit : s.initialized = true) (hcap : 2 ≤ s.maxConn) :
    s.available.length < s.maxConn ∧
    RStep s (ReusableConnectionPool.returnToPool c s) ∧
    (ReusableConnectionPool.returnToPool c s).available.length <
        (ReusableConnectionPool.returnToPool c s).maxConn ∧
    RStep (ReusableConnectionPool.returnToPool c s)
      (ReusableConnectionPool.returnToPool c
        (ReusableConnectionPool.returnToPool c s)) ∧
    (ReusableConnectionPool.returnToPool c
        (ReusableConnectionPool.returnToPool c s)).available
      = [some c, some c] ∧
    ∃ s₂ s₃,
      ReusableConnectionPool.connect
          (ReusableConnectionPool.returnToPool c
            (ReusableConnectionPool.returnToPool c s)) = some (c, s₂) ∧
      ReusableConnectionPool.connect s₂ = some (c, s₃) := by
  have e1 : ReusableConnectionPool.returnToPool c s =
      { s with available := [some c], checkedOut := s.checkedOut.erase c } := by
    rw [rreturn_mem c s hc, hav]
    rfl
  have e2 : ReusableConnectionPool.returnToPool c
      ({ s with available := [some c], checkedOut := s.checkedOut.erase c }) =
      { s with available := [some c, some c]
             , checkedOut := (s.checkedOut.erase c).erase c } := by
    rw [rreturn_mem c
      { s with available := [some c], checkedOut := s.checkedOut.erase c } hc]
    rfl
  have g1 : s.available.length < s.maxConn := by
    rw [hav]
    show 0 < s.maxConn
    omega
  have g2 : (ReusableConnectionPool.returnToPool c s).available.length <
      (ReusableConnectionPool.returnToPool c s).maxConn := by
    rw [e1]
    show 1 < s.maxConn
    omega
  refine ⟨g1, RStep.ret c s (fun _ => g1), g2,
    RStep.ret c (ReusableConnectionPool.returnToPool c s) (fun _ => g2),
    ?_, ?_⟩
  · rw [e1, e2]
  · rw [e1, e2]
    have e3 : ReusableConnectionPool.connect
        { s with available := [some c, some c]
               , checkedOut := (s.checkedOut.erase c).erase c } =
        some (c, { s with available := [some c]
                        , checkedOut :=
                            insert c ((s.checkedOut.erase c).erase c) }) :=
      rconnect_cons c [some c] _ hinit rfl
    have e4 : ReusableConnectionPool.connect
        { s with available := [some c]
               , checkedOut := insert c ((s.checkedOut.erase c).erase c) } =
        some (c, { s with available := []
                        , checkedOut :=
                            insert c (insert c ((s.checkedOut.erase c).erase c)) }) :=
      rconnect_cons c [] _ hinit rfl
    exact ⟨_, _, e3, e4⟩

theorem reusable_double_return_enqueues_twice_witness :
    ({ available := [], allConns := {0, 1}, nextId := 2
     , initialized := true, maxConn := 2, everCreated := {0, 1}
     , closedConns := ∅, checkedOut := {0, 1}, dbFile := "chroma.sqlite3"
     , isUri := false } : RState).available.length <
        ({ available := [], allConns := {0, 1}, nextId := 2
         , initialized := true, maxConn := 2, everCreated := {0, 1}
         , closedConns := ∅, checkedOut := {0, 1}, dbFile := "chroma.sqlite3"
         , isUri := false } : RState).maxConn ∧
    RStep { available := [], allConns := {0, 1}, nextId := 2
          , initialized := true, maxConn := 2, everCreated := {0, 1}
          , closedConns := ∅, checkedOut := {0, 1}, dbFile := "chroma.sqlite3"
          , isUri := false }
      (ReusableConnectionPool.returnToPool 0
        { available := [], allConns := {0, 1}, nextId := 2
        , initialized := true, maxConn := 2, everCreated := {0, 1}
        , closedConns := ∅, checkedOut := {0, 1}, dbFile := "chroma.sqlite3"
        , isUri := false }) ∧
    (ReusableConnectionPool.returnToPool 0
        { available := [], allConns := {0, 1}, nextId := 2
        , initialized := true, maxConn := 2, everCreated := {0, 1}
        , closedConns := ∅, checkedOut := {0, 1}, dbFile := "chroma.sqlite3"
        , isUri := false }).available.length <
      (ReusableConnectionPool.returnToPool 0
        { available := [], allConns := {0, 1}, nextId := 2
        , initialized := true, maxConn := 2, everCreated := {0, 1}
        , closedConns := ∅, checkedOut := {0, 1}, dbFile := "chroma.sqlite3"
        , isUri := false }).maxConn ∧
    RStep (ReusableConnectionPool.returnToPool 0
        { available := [], allConns := {0, 1}, nextId := 2
        , initialized := true, maxConn := 2, everCreated := {0, 1}
        , closedConns := ∅, checkedOut := {0, 1}, dbFile := "chroma.sqlite3"
        , isUri := false })
      (ReusableConnectionPool.returnToPool 0
        (ReusableConnectionPool.returnToPool 0
          { available := [], allConns := {0, 1}, nextId := 2
          , initialized := true, maxConn := 2, everCreated := {0, 1}
          , closedConns := ∅, checkedOut := {0, 1}, dbFile := "chroma.sqlite3"
          , isUri := false })) ∧
    (ReusableConnectionPool.returnToPool 0
        (ReusableConnectionPool.returnToPool 0
          { available := [], allConns := {0, 1}, nextId := 2
          , initialized := true, maxConn := 2, everCreated := {0, 1}
          , closedConns := ∅, checkedOut := {0, 1}, dbFile := "chroma.sqlite3"
          , isUri := false })).available = [some 0, some 0] ∧
    ∃ s₂ s₃,
      ReusableConnectionPool.connect
          (ReusableConnectionPool.returnToPool 0
            (ReusableConnectionPool.returnToPool 0
              { available := [], allConns := {0, 1}, nextId := 2
              , initialized := true, maxConn := 2, everCreated := {0, 1}
              , closedConns := ∅, checkedOut := {0, 1}
              , dbFile := "chroma.sqlite3", isUri := false })) = some (0, s₂) ∧
      ReusableConnectionPool.connect s₂ = some (0, s₃) :=
  reusable_double_return_enqueues_twice 0 _ (by decide) rfl rfl (by decide)

/-- Claim C7: a `PerThreadPool` thread connecting twice with no intervening
`close()` receives the identical handle (and the state is unchanged by the
second call); two distinct threads never receive the same handle; and
`return_to_pool` is a no-op leaving the whole pool state unchanged. -/
theorem perThread_affinity_and_noop_release :
    (∀ (t : Nat) (s : PState),
      (PerThreadPool.connect t (PerThreadPool.connect t s).2).1 =
        (PerThreadPool.connect t s).1 ∧
      (PerThreadPool.connect t (PerThreadPool.connect t s).2).2 =
        (PerThreadPool.connect t s).2) ∧
    (∀ (t₁ t₂ : Nat) (s : PState), PReach s → t₁ ≠ t₂ →
      (PerThreadPool.connect t₂ (PerThreadPool.connect t₁ s).2).1 ≠
        (PerThreadPool.connect t₁ s).1) ∧
    (∀ (c : Nat) (s : PState), PerThreadPool.returnToPool c s = s) := by
  refine ⟨?_, ?_, fun c s => rfl⟩
  · intro t s
    cases hc : s.threadConn t with
    | some c =>
        unfold PerThreadPool.connect
        simp [hc]
    | none =>
        unfold PerThreadPool.connect
        simp [hc]
  · intro t₁ t₂ s hs hne
    obtain ⟨i1, i2, i3, i4, i5⟩ := preach_inv hs
    cases hc1 : s.threadConn t₁ with
    | some c₁ =>
        cases hc2 : s.threadConn t₂ with
        | some c₂ =>
            unfold PerThreadPool.connect
            simp only [hc1, hc2]
            intro hcc
            rw [hcc] at hc2
            exact hne (i5 t₁ t₂ c₁ hc1 hc2)
        | none =>
            unfold PerThreadPool.connect
            simp only [hc1, hc2]
            intro hcc
            have := i1 c₁ (i4 t₁ c₁ hc1)
            omega
    | none =>
        cases hc2 : s.threadConn t₂ with
        | some c₂ =>
            unfold PerThreadPool.connect
            simp only [hc1, if_neg (Ne.symm hne), hc2]
            intro hcc
            have := i1 c₂ (i4 t₂ c₂ hc2)
            omega
        | none =>
            unfold PerThreadPool.connect
            simp only [hc1, if_neg (Ne.symm hne), hc2]
            omega

theorem perThread_affinity_and_noop_release_witness :
    ((PerThreadPool.connect 0
        (PerThreadPool.connect 0 (PState.mkInit "chroma.sqlite3" false)).2).1 =
      (PerThreadPool.connect 0 (PState.mkInit "chroma.sqlite3" false)).1 ∧
      (PerThreadPool.connect 0
        (PerThreadPool.connect 0 (PState.mkInit "chroma.sqlite3" false)).2).2 =
      (PerThreadPool.connect 0 (PState.mkInit "chroma.sqlite3" false)).2) ∧
    ((PerThreadPool.connect 1
        (PerThreadPool.connect 0 (PState.mkInit "chroma.sqlite3" false)).2).1 ≠
      (PerThreadPool.connect 0 (PState.mkInit "chroma.sqlite3" false)).1) ∧
    (PerThreadPool.returnToPool 7 (PState.mkInit "chroma.sqlite3" false) =
      PState.mkInit "chroma.sqlite3" false) :=
  ⟨perThread_affinity_and_noop_release.1 0 (PState.mkInit "chroma.sqlite3" false),
   perThread_affinity_and_noop_release.2.1 0 1
     (PState.mkInit "chroma.sqlite3" false)
     (PReach.init "chroma.sqlite3" false) (by decide),
   perThread_affinity_and_noop_release.2.2 7
     (PState.mkInit "chroma.sqlite3" false)⟩

/-- Claim C10: after `close()`, `connect()` on a `LockPool` (provided the
lock is acquirable) or a `PerThreadPool` does not fail: the all-connections
set was cleared and the thread-local cache replaced, so the call silently
opens, caches and registers a brand-new connection — one never created
before — re-entering the normal Ready behavior. -/
theorem pools_connect_after_close (t w : Nat) (s : LState) (p : PState)
    (hs : LReach s) (hp : PReach p) :
    (∀ s', LockPool.close t s = .ok s' → RLock.canAcquire w s'.lock →
      (LockPool.connect w s').1 = s'.nextId ∧
      (LockPool.connect w s').1 ∉ s.everCreated ∧
      (LockPool.connect w s').2.threadConn w = some s'.nextId ∧
      (LockPool.connect w s').2.connections = insert s'.nextId ∅) ∧
    ((PerThreadPool.connect w (PerThreadPool.close p)).1 = p.nextId ∧
      (PerThreadPool.connect w (PerThreadPool.close p)).1 ∉ p.everCreated ∧
      (PerThreadPool.connect w (PerThreadPool.close p)).2.threadConn w
          = some p.nextId ∧
      (PerThreadPool.connect w (PerThreadPool.close p)).2.connections
          = insert p.nextId ∅) := by
  constructor
  · intro s' hclose hacq
    obtain ⟨f1, f2, f3, f4, f5⟩ := lclose_fields t s s' hclose
    have htc : s'.threadConn w = none := by rw [f2]
    have hfresh : s'.nextId ∉ s.everCreated := by
      obtain ⟨i1, i2, i3, i4⟩ := lreach_inv hs
      rw [f5]
      intro hmem
      exact absurd (i1 _ hmem) (lt_irrefl _)
    rw [lconnect_none w s' htc]
    refine ⟨rfl, hfresh, by simp, ?_⟩
    rw [f1]
  · have htc : (PerThreadPool.close p).threadConn w = none := rfl
    have hfresh : p.nextId ∉ p.everCreated := by
      obtain ⟨i1, i2, i3, i4, i5⟩ := preach_inv hp
      intro hmem
      exact absurd (i1 _ hmem) (lt_irrefl _)
    rw [pconnect_none w (PerThreadPool.close p) htc]
    exact ⟨by rfl, hfresh, by simp [PerThreadPool.close], by rfl⟩

theorem pools_connect_after_close_witness :
    (∀ s', LockPool.close 0 (LState.mkInit "chroma.sqlite3" false) = .ok s' →
      RLock.canAcquire 1 s'.lock →
      (LockPool.connect 1 s').1 = s'.nextId ∧
      (LockPool.connect 1 s').1 ∉
          (LState.mkInit "chroma.sqlite3" false).everCreated ∧
      (LockPool.connect 1 s').2.threadConn 1 = some s'.nextId ∧
      (LockPool.connect 1 s').2.connections = insert s'.nextId ∅) ∧
    ((PerThreadPool.connect 1
        (PerThreadPool.close (PState.mkInit "chroma.sqlite3" false))).1 =
        (PState.mkInit "chroma.sqlite3" false).nextId ∧
      (PerThreadPool.connect 1
        (PerThreadPool.close (PState.mkInit "chroma.sqlite3" false))).1 ∉
        (PState.mkInit "chroma.sqlite3" false).everCreated ∧
      (PerThreadPool.connect 1
        (PerThreadPool.close
          (PState.mkInit "chroma.sqlite3" false))).2.threadConn 1
          = some (PState.mkInit "chroma.sqlite3" false).nextId ∧
      (PerThreadPool.connect 1
        (PerThreadPool.close
          (PState.mkInit "chroma.sqlite3" false))).2.connections
          = insert (PState.mkInit "chroma.sqlite3" false).nextId ∅) :=
  pools_connect_after_close 0 1 (LState.mkInit "chroma.sqlite3" false)
    (PState.mkInit "chroma.sqlite3" false)
    (LReach.init "chroma.sqlite3" false) (PReach.init "chroma.sqlite3" false)

/-- Claim C4: for every pool variant, after `close()` every connection the
pool ever created has been physically closed (`everCreated ⊆ closedConns`)
and the all-connections registry is empty; and a second `close()` also
returns normally — the `LockPool` lock-release error is caught, and the
`ReusableConnectionPool` drain loop finds an already-empty queue — again
leaving the registry empty and everything closed. -/
theorem pools_close_teardown :
    (∀ (t : Nat) (s : LState), LReach s →
      ∃ s', LockPool.close t s = .ok s' ∧
        s'.everCreated ⊆ s'.closedConns ∧ s'.connections = ∅ ∧
        ∀ w : Nat, ∃ s'', LockPool.close w s' = .ok s'' ∧
          s''.everCreated ⊆ s''.closedConns ∧ s''.connections = ∅) ∧
    (∀ p : PState, PReach p →
      (PerThreadPool.close p).everCreated ⊆
          (PerThreadPool.close p).closedConns ∧
      (PerThreadPool.close p).connections = ∅ ∧
      (PerThreadPool.close (PerThreadPool.close p)).everCreated ⊆
          (PerThreadPool.close (PerThreadPool.close p)).closedConns ∧
      (PerThreadPool.close (PerThreadPool.close p)).connections = ∅) ∧
    (∀ r : RState, RReach r →
      ∃ r', ReusableConnectionPool.close r = .ok r' ∧
        r'.everCreated ⊆ r'.closedConns ∧ r'.allConns = ∅ ∧
        ∃ r'', ReusableConnectionPool.close r' = .ok r'' ∧
          r''.everCreated ⊆ r''.closedConns ∧ r''.allConns = ∅) := by
  refine ⟨?_, ?_, ?_⟩
  · intro t s hs
    obtain ⟨i1, i2, i3, i4⟩ := lreach_inv hs
    obtain ⟨s', hok⟩ := lclose_isOk t s
    obtain ⟨f1, f2, f3, f4, f5⟩ := lclose_fields t s s' hok
    refine ⟨s', hok, ?_, f1, ?_⟩
    · rw [f3, f4]
      exact i3
    · intro w
      obtain ⟨s'', hok2⟩ := lclose_isOk w s'
      obtain ⟨g1, g2, g3, g4, g5⟩ := lclose_fields w s' s'' hok2
      refine ⟨s'', hok2, ?_, g1⟩
      rw [g3, g4, f1, f3, f4]
      intro x hx
      exact Finset.mem_union_left _ (i3 hx)
  · intro p hp
    obtain ⟨i1, i2, i3, i4, i5⟩ := preach_inv hp
    dsimp only [PerThreadPool.close]
    refine ⟨?_, rfl, ?_, rfl⟩
    · intro x hx
      exact i3 hx
    · intro x hx
      exact Finset.mem_union_left _ (i3 hx)
  · intro r hr
    obtain ⟨i1, i2, i3, i4, i5⟩ := rreach_inv hr
    have hall : r.available.all Option.isSome = true := by
      rw [List.all_eq_true]
      intro o ho
      obtain ⟨c, rfl, hmem⟩ := i1 o ho
      rfl
    have hok := rclose_of_allSome r hall
    have hsub : r.everCreated ⊆
        r.closedConns ∪ (r.available.filterMap id).toFinset ∪ r.allConns := by
      intro x hx
      rcases Finset.mem_union.mp (i4 hx) with hx' | hx'
      · exact Finset.mem_union_left _ (Finset.mem_union_left _ hx')
      · exact Finset.mem_union_right _ hx'
    refine ⟨_, hok, hsub, rfl, ?_⟩
    have hok2 := rclose_of_allSome
      { r with available := []
             , closedConns :=
                 r.closedConns ∪ (r.available.filterMap id).toFinset ∪ r.allConns
             , allConns := ∅ } rfl
    refine ⟨_, hok2, ?_, rfl⟩
    intro x hx
    exact Finset.mem_union_left _ (Finset.mem_union_left _ (hsub hx))

theorem pools_close_teardown_witness :
    (∃ s', LockPool.close 0 (LState.mkInit "chroma.sqlite3" false) = .ok s' ∧
      s'.everCreated ⊆ s'.closedConns ∧ s'.connections = ∅ ∧
      ∀ w : Nat, ∃ s'', LockPool.close w s' = .ok s'' ∧
        s''.everCreated ⊆ s''.closedConns ∧ s''.connections = ∅) ∧
    ((PerThreadPool.close (PState.mkInit "chroma.sqlite3" false)).everCreated ⊆
        (PerThreadPool.close (PState.mkInit "chroma.sqlite3" false)).closedConns ∧
      (PerThreadPool.close (PState.mkInit "chroma.sqlite3" false)).connections
          = ∅ ∧
      (PerThreadPool.close (PerThreadPool.close
          (PState.mkInit "chroma.sqlite3" false))).everCreated ⊆
        (PerThreadPool.close (PerThreadPool.close
          (PState.mkInit "chroma.sqlite3" false))).closedConns ∧
      (PerThreadPool.close (PerThreadPool.close
          (PState.mkInit "chroma.sqlite3" false))).connections = ∅) ∧
    (∃ r', ReusableConnectionPool.close
        (ReusableConnectionPool.mkPool 2 "chroma.sqlite3" false) = .ok r' ∧
      r'.everCreated ⊆ r'.closedConns ∧ r'.allConns = ∅ ∧
      ∃ r'', ReusableConnectionPool.close r' = .ok r'' ∧
        r''.everCreated ⊆ r''.closedConns ∧ r''.allConns = ∅) :=
  ⟨pools_close_teardown.1 0 (LState.mkInit "chroma.sqlite3" false)
      (LReach.init "chroma.sqlite3" false),
   pools_close_teardown.2.1 (PState.mkInit "chroma.sqlite3" false)
      (PReach.init "chroma.sqlite3" false),
   pools_close_teardown.2.2 (ReusableConnectionPool.mkPool 2 "chroma.sqlite3" false)
      (RReach.init 2 "chroma.sqlite3" false)⟩

end SqlitePool
